import Mathlib

/-!
Verification of the carrefour-promo-watcher promotion-discovery pipeline.

The repository has two variants of the watcher:
* promo_watcher_headless.py (the "headless" variant), and
* promo_watcher.py (the "plain" variant, emitted by the setup script).

Shallow embedding notes:
* HTML documents are modelled post-parse, as the node forest BeautifulSoup
  produces with the html.parser builder: an element tree with text leaves.
  The empty input string parses to the empty forest; a non-HTML plain-text
  input parses to a single text node holding the whole input.
* The Python regex PCT_RE = (-?\d{1,3})\s?% is modelled with \d as the
  ASCII digits and \s as whitespace, with the regex engine's leftmost scan
  and greedy backtracking made explicit (tryK 3, then 2, then 1).
* Network effects (robots.txt retrieval, Playwright, requests, Telegram)
  are modelled as explicit parameters: an Except value for a fallible
  fetch, a Bool-valued oracle for the robots decision, and the returned
  String for the message handed to the notification sink.
-/

namespace PromoWatcher

/-- A parsed DOM node: a text leaf (NavigableString) or an element with a
tag name, attributes, and children.  A document is a list of roots. -/
inductive Node where
  | text (s : String) : Node
  | elem (tag : String) (attrs : List (String × String)) (children : List Node) : Node

/-! ### The percentage-token scanner: PCT_RE = (-?\d{1,3})\s?% -/

/-- Value of a digit string, as Python int() computes it (sign handled
by the caller). -/
def digitsVal (ds : List Char) : Nat :=
  ds.foldl (fun a c => 10 * a + (c.toNat - 48)) 0

/-- After the digit group, the regex tail \s?% : either a percent sign
directly, or one whitespace character then a percent sign (greedy \s?
with its only useful backtrack made explicit).  Returns the rest of the
input after the match. -/
def afterDigits : List Char → Option (List Char)
  | [] => none
  | [c] => if c = '%' then some [] else none
  | c :: d :: r =>
    if c = '%' then some (d :: r)
    else if c.isWhitespace && d = '%' then some r else none

/-- One backtracking step of the greedy \d{1,3}: try to read exactly k
digits here, then the \s?% tail.  Returns the numeric value of the digit
group and the rest of the input. -/
def tryK (cs1 : List Char) (k : Nat) : Option (Nat × List Char) :=
  let ds := cs1.take k
  if ds.length == k && ds.all Char.isDigit then
    (afterDigits (cs1.drop k)).map (fun r => (digitsVal ds, r))
  else none

/-- The magnitude part \d{1,3}\s?% with the greedy quantifier: three
digits are preferred, then two, then one. -/
def matchMag (cs1 : List Char) : Option (Nat × List Char) :=
  match tryK cs1 3 with
  | some p => some p
  | none =>
    match tryK cs1 2 with
    | some p => some p
    | none => tryK cs1 1

/-- An anchored match of PCT_RE at the head of the input.  Only the ASCII
hyphen-minus is part of the pattern; in the source the captured group is
passed through replace of the Unicode minus, which can therefore never
fire, and int() of the group, which can never raise.  Returns the parsed
integer value of group 1 and the rest of the input after the match. -/
def matchAt : List Char → Option (Int × List Char)
  | [] => none
  | c :: t =>
    if c = '-' then (matchMag t).map (fun p => (-(p.1 : Int), p.2))
    else (matchMag (c :: t)).map (fun p => ((p.1 : Int), p.2))

/-- PCT_RE.finditer with the int() parse of each captured group, fuelled
so that the recursion is structural: each successful match consumes at
least two characters, so fuel = input length always suffices. -/
def pctScanAux : Nat → List Char → List Int
  | 0, _ => []
  | _, [] => []
  | fuel + 1, c :: rest =>
    match matchAt (c :: rest) with
    | some (v, r) => v :: pctScanAux fuel r
    | none => pctScanAux fuel rest

/-- All integer values produced by scanning the text with PCT_RE, in
text order (the found list of extract_promos). -/
def pctScan (cs : List Char) : List Int := pctScanAux cs.length cs

/-- PCT_RE.search as a Bool: does any position of the text start a match? -/
def pctSearch : List Char → Bool
  | [] => false
  | c :: rest => (matchAt (c :: rest)).isSome || pctSearch rest

/-! ### Python string helpers used by extract_promos -/

/-- Python str.strip(): remove leading and trailing whitespace. -/
def stripChars (cs : List Char) : List Char :=
  ((cs.dropWhile Char.isWhitespace).reverse.dropWhile Char.isWhitespace).reverse

/-- Accumulator worker for Python str.split(): split on whitespace runs,
dropping empty pieces. -/
def wordsAux : List Char → List Char → List (List Char)
  | [], acc => if acc.isEmpty then [] else [acc.reverse]
  | c :: rest, acc =>
    if c.isWhitespace then
      if acc.isEmpty then wordsAux rest [] else acc.reverse :: wordsAux rest []
    else wordsAux rest (c :: acc)

/-- Python str.split() with no separator argument. -/
def pyWords (cs : List Char) : List (List Char) := wordsAux cs []

/-- The snippet normalisation " ".join(s.split()): collapse every
whitespace run to one space and trim the ends. -/
def normalizeWs (cs : List Char) : List Char := List.intercalate [' '] (pyWords cs)

/-! ### DOM traversals: find_all(string=True), get_text, soup.select -/

mutual
/-- All text-leaf strings below one node, in document order
(soup.find_all(string=True) restricted to the subtree). -/
def textsN : Node → List String
  | .text s => [s]
  | .elem _ _ ch => textsL ch

/-- All text-leaf strings of a forest, in document order. -/
def textsL : List Node → List String
  | [] => []
  | n :: rest => textsN n ++ textsL rest
end

/-- The full_text blob of extract_promos: every text node, stripped,
empty blobs dropped, the rest joined with " \n". -/
def fullText (doc : List Node) : List Char :=
  List.intercalate [' ', '\n']
    (((textsL doc).map (fun s => stripChars s.data)).filter (fun l => !l.isEmpty))

/-- card.get_text(" ", strip=True): the stripped non-empty text
descendants of the node joined with single spaces. -/
def getText (n : Node) : List Char :=
  List.intercalate [' ']
    (((textsN n).map (fun s => stripChars s.data)).filter (fun l => !l.isEmpty))

/-- Is needle a prefix of hay? (worker for the CSS *= substring test). -/
def isPrefB : List Char → List Char → Bool
  | [], _ => true
  | _ :: _, [] => false
  | a :: as, b :: bs => a == b && isPrefB as bs

/-- Does hay contain needle as a contiguous substring? (CSS attribute
substring operator *=). -/
def containsB (needle : List Char) : List Char → Bool
  | [] => isPrefB needle []
  | c :: rest => isPrefB needle (c :: rest) || containsB needle rest

/-- CSS attribute substring test on one attribute of an element. -/
def attrContains (attrs : List (String × String)) (nm : String) (needle : String) : Bool :=
  match List.lookup nm attrs with
  | some v => containsB needle.data v.data
  | none => false

/-- One element against the card selector.  The headless variant selects
with the extra alternative data-testid containing card; the plain variant
omits it (useTestid distinguishes the two). -/
def nodeMatches (useTestid : Bool) : Node → Bool
  | .text _ => false
  | .elem tag attrs _ =>
    attrContains attrs "class" "card" || attrContains attrs "class" "Card" ||
    tag == "article" || tag == "li" ||
    (useTestid && attrContains attrs "data-testid" "card")

mutual
/-- soup.select on one subtree: the matching elements in document
(pre-order) order, the node itself before its descendants. -/
def selN (useTestid : Bool) : Node → List Node
  | .text _ => []
  | .elem t a ch =>
    (if nodeMatches useTestid (.elem t a ch) then [Node.elem t a ch] else []) ++
      selL useTestid ch

/-- soup.select on a forest, document order. -/
def selL (useTestid : Bool) : List Node → List Node
  | [] => []
  | n :: rest => selN useTestid n ++ selL useTestid rest
end

/-- The card loop of extract_promos: normalise each selected element's
text, keep it if PCT_RE.search finds a token, truncating the kept
snippet to its first 220 characters. -/
def cardsLoop : List Node → List String
  | [] => []
  | card :: rest =>
    let snippet := normalizeWs (getText card)
    if pctSearch snippet then String.mk (snippet.take 220) :: cardsLoop rest
    else cardsLoop rest

/-- Python sorted(·, reverse=True) on distinct integers: sort descending. -/
def sortDesc (l : List Int) : List Int :=
  List.insertionSort (fun a b => b ≤ a) l

/-- extract_promos, common to both variants (useTestid picks the card
selector).  Returns (sorted(set(hits), reverse=True), cards[:5]). -/
def extractGen (useTestid : Bool) (doc : List Node) : List Int × List String :=
  let found := pctScan (fullText doc)
  let hits := found.filter (fun v => decide (50 ≤ v.natAbs))
  let cards := cardsLoop (selL useTestid doc)
  (sortDesc hits.dedup, cards.take 5)

/-- extract_promos of promo_watcher_headless.py. -/
def extract_promos (doc : List Node) : List Int × List String := extractGen true doc

/-- extract_promos of promo_watcher.py (no data-testid alternative in the
selector; everything else identical). -/
def extract_promos_plain (doc : List Node) : List Int × List String := extractGen false doc

/-! ### ComplianceGate: allowed_by_robots in both variants -/

/-- allowed_by_robots of promo_watcher_headless.py.  The robots.txt
retrieval and parse is modelled as an Except: on success a can_fetch
oracle, on failure the raised exception.  SKIP_ROBOTS bypasses the check
with a warning.  The except branch logs and returns True. -/
def allowed_by_robots {εr : Type} (skipRobots : Bool)
    (robots : Except εr (String → String → Bool)) (userAgent url : String) : Bool :=
  if skipRobots then true
  else
    match robots with
    | .ok canFetch => canFetch userAgent url
    | .error _ => true

/-- allowed_by_robots of promo_watcher.py: same shape, no bypass flag,
and the except branch logs and returns False. -/
def allowed_by_robots_plain {εr : Type}
    (robots : Except εr (String → String → Bool)) (userAgent url : String) : Bool :=
  match robots with
  | .ok canFetch => canFetch userAgent url
  | .error _ => false

/-! ### SourceSelector: fetch_first_ok of promo_watcher_headless.py -/

/-- The two acquisition strategies, in the order the source tries them. -/
inductive Strategy where
  | dynamic : Strategy
  | static : Strategy
deriving DecidableEq

/-- The failure fetch_first_ok raises after the loop: the last stored
exception if any fetch was attempted, else the generic RuntimeError
"Toutes les URL ont échoué". -/
inductive FetchFailure (ε : Type) where
  | lastError (e : ε) : FetchFailure ε
  | noSources : FetchFailure ε
deriving DecidableEq

/-- The collaborators of fetch_first_ok: the robots gate and the two
fetch strategies (Playwright, then requests), each returning html or
raising. -/
structure FetchEnv (ε : Type) where
  allowed : String → Bool
  dynFetch : String → Except ε String
  staFetch : String → Except ε String

/-- fetch_first_ok of promo_watcher_headless.py over a candidate list and
the running last_err.  The first component is the returned pair or the
raised failure; the second records, in order, every fetch attempt the run
makes (url and strategy), so that skipping and short-circuiting are
observable. -/
def fetch_first_ok {ε : Type} (env : FetchEnv ε) :
    List String → Option ε →
      Except (FetchFailure ε) (String × String) × List (String × Strategy)
  | [], lastErr =>
    (.error (match lastErr with | some e => .lastError e | none => .noSources), [])
  | url :: rest, lastErr =>
    if env.allowed url then
      match env.dynFetch url with
      | .ok html => (.ok (url, html), [(url, .dynamic)])
      | .error _ =>
        match env.staFetch url with
        | .ok html => (.ok (url, html), [(url, .dynamic), (url, .static)])
        | .error e2 =>
          let r := fetch_first_ok env rest (some e2)
          (r.1, (url, .dynamic) :: (url, .static) :: r.2)
    else fetch_first_ok env rest lastErr

/-! ### AlertComposer and RunCoordinator: job_once in both variants -/

/-- Python sep.join(parts). -/
def joinSep (sep : String) : List String → String
  | [] => ""
  | [a] => a
  | a :: b :: t => a ++ sep ++ joinSep sep (b :: t)

/-- The message composition of job_once in promo_watcher_headless.py,
with the rendered current time passed in for the %H:%M interpolation. -/
def composeAlert (hits : List Int) (cards : List String) (url now : String) : String :=
  if hits.isEmpty then
    "🕐 " ++ now ++ " — aucune remise ≥ 50% trouvée (source : " ++ url ++ ")."
  else
    let header := "🛒 Carrefour : " ++ toString hits.length ++ " remise(s) ≥ 50% (" ++
      joinSep ", " ((hits.take 5).map (fun v => toString v.natAbs ++ "%")) ++ ")"
    let body := if cards.isEmpty then "" else "\n• " ++ joinSep "\n• " cards
    header ++ "\n" ++ body ++ "\n\nSource : " ++ url

/-- The fixed promotions URL of promo_watcher.py. -/
def PROMO_URL : String := "https://www.carrefour.fr/promotions"

/-- The message composition of job_once in promo_watcher.py.  Its
empty-hit branch interpolates only the time: no URL appears in it. -/
def composeAlertPlain (hits : List Int) (cards : List String) (now : String) : String :=
  if hits.isEmpty then
    "🕓 " ++ now ++ " – aucune remise ≥ 50% trouvée."
  else
    let header := "🔥 Carrefour: " ++ toString hits.length ++ " remise(s) ≥ 50% (" ++
      joinSep ", " ((hits.take 5).map (fun v => toString v.natAbs ++ "%")) ++ ")"
    let body := if cards.isEmpty then "" else "\n• " ++ joinSep "\n• " cards
    header ++ "\n" ++ body ++ "\n\nLien: " ++ PROMO_URL

/-- The error-notification text of promo_watcher_headless.py's job_once
except branch, with the stringified exception appended. -/
def errNotice (e : String) : String :=
  "⚠️ Erreur de téléchargement des pages promos: " ++ e

/-- job_once of promo_watcher_headless.py, as a function of the outcome
of fetch_first_ok (error rendered as a string, or the used url with the
parsed document) and of the rendered time.  Every control path sends
exactly one Telegram message; the returned string is that message. -/
def job_once (fetched : Except String (String × List Node)) (now : String) : String :=
  match fetched with
  | .error e => errNotice e
  | .ok (url, doc) =>
    let r := extract_promos doc
    composeAlert r.1 r.2 url now

/-- job_once of promo_watcher.py: the robots refusal and the download
error both return after logging only, sending nothing (none); otherwise
one message is sent. -/
def job_once_plain (robotsOK : Bool) (fetched : Except String (List Node)) (now : String) :
    Option String :=
  if robotsOK then
    match fetched with
    | .error _ => none
    | .ok doc =>
      let r := extract_promos_plain doc
      some (composeAlertPlain r.1 r.2 now)
  else none

/-! ### Auxiliary notions used by the verification statements -/

/-- The optional \s? between the digit group and the percent sign:
either nothing or exactly one whitespace character. -/
def WsOpt (ws : List Char) : Prop := ws = [] ∨ ∃ c, c.isWhitespace = true ∧ ws = [c]

/-- Declarative reading of one anchored PCT_RE match: the input starts
with an optional ASCII minus, one to three digits, an optional single
whitespace character and a percent sign, the value is the signed value
of the digit group, and r is everything after the percent sign. -/
def IsPctTokenAt (cs : List Char) (v : Int) (r : List Char) : Prop :=
  ∃ (sign : Bool) (ds ws : List Char),
    cs = (if sign then ['-'] else []) ++ (ds ++ (ws ++ '%' :: r)) ∧
    1 ≤ ds.length ∧ ds.length ≤ 3 ∧ ds.all Char.isDigit = true ∧
    WsOpt ws ∧
    v = (if sign then -(digitsVal ds : Int) else (digitsVal ds : Int))

/-- Worker for digitRuns, accumulating the current run reversed. -/
def digitRunsAux : List Char → List Char → List (List Char)
  | [], acc => if acc.isEmpty then [] else [acc.reverse]
  | c :: rest, acc =>
    if c.isDigit then digitRunsAux rest (c :: acc)
    else if acc.isEmpty then digitRunsAux rest []
    else acc.reverse :: digitRunsAux rest []

/-- The maximal digit runs of a text: the whole numbers literally
written in it. -/
def digitRuns (cs : List Char) : List (List Char) := digitRunsAux cs []

/-- needle occurs in hay as a contiguous substring. -/
def strIn (needle hay : String) : Prop := needle.data <:+: hay.data

instance (a b : String) : Decidable (strIn a b) :=
  inferInstanceAs (Decidable (a.data <:+: b.data))

/-- Ten qualifying card elements in a row (the snippet-cap example of
the spec's testable properties). -/
def tenCards : List Node := List.replicate 10 (Node.elem "li" [] [Node.text "-60% soldes"])

/-- Concrete selector environment: candidate "a" is disallowed by
policy, candidate "b" succeeds on the dynamic strategy. -/
def envSkipThenOk : FetchEnv String where
  allowed := fun u => u == "b"
  dynFetch := fun u => if u == "b" then .ok "<html>" else .error "pw"
  staFetch := fun _ => .error "rq"

/-- Concrete selector environment: every URL is allowed and both
strategies fail everywhere. -/
def envAllFail : FetchEnv String where
  allowed := fun _ => true
  dynFetch := fun _ => .error "pw"
  staFetch := fun _ => .error "rq"

/-- Concrete selector environment: every URL is disallowed by policy. -/
def envAllSkipped : FetchEnv String where
  allowed := fun _ => false
  dynFetch := fun _ => .error "pw"
  staFetch := fun _ => .error "rq"

/-! ### Sanity evaluations of the embedding (mirroring the source on
concrete inputs) -/

example : pctScan ("52% 99% 60%".data) = [52, 99, 60] := by decide
example : pctScan ("-55% -55% 30%".data) = [-55, -55, 30] := by decide
example : pctScan ("−55%".data) = [55] := by decide
example : pctScan ("1234%".data) = [234] := by decide
example : pctScan ("12 %".data) = [12] := by decide
example : pctScan ("12  %".data) = [] := by decide
example : extract_promos [Node.text "-55% -55% 30%"] = ([-55], []) := by decide
example : extract_promos [Node.text "52% 99% 60%"] = ([99, 60, 52], []) := by decide
example :
    extract_promos [Node.elem "li" [] [Node.text " -60% off "]] =
      ([-60], ["-60% off"]) := by decide
example :
    extract_promos [Node.elem "div" [("class", "promo-card")] [Node.text "-70%"]] =
      ([-70], ["-70%"]) := by decide
example :
    extract_promos [Node.elem "div" [("data-testid", "promo-card-1")] [Node.text "-70%"]] =
      ([-70], ["-70%"]) := by decide
example :
    extract_promos_plain [Node.elem "div" [("data-testid", "promo-card-1")] [Node.text "-70%"]] =
      ([-70], []) := by decide
example :
    composeAlert [] [] "u" "09:05" = "🕐 09:05 — aucune remise ≥ 50% trouvée (source : u)." := by
  decide
example :
    composeAlert [99, -55] ["a b"] "u" "09:05" =
      "🛒 Carrefour : 2 remise(s) ≥ 50% (99%, 55%)\n\n• a b\n\nSource : u" := by decide
example :
    composeAlertPlain [] [] "09:05" = "🕓 09:05 – aucune remise ≥ 50% trouvée." := by decide

/-! ### Characterisation of the PCT_RE token pattern -/

theorem not_digit_of_ws (c : Char) (h : c.isWhitespace = true) : c.isDigit = false := by
  simp [Char.isWhitespace] at h
  rcases h with ((h | h) | h) | h <;> subst h <;> decide

theorem afterDigits_eq_some (xs r : List Char) :
    afterDigits xs = some r ↔ ∃ ws, WsOpt ws ∧ xs = ws ++ '%' :: r := by
  constructor
  · intro h
    rcases xs with _ | ⟨c, _ | ⟨d, t⟩⟩
    · simp [afterDigits] at h
    · by_cases hc : c = '%'
      · subst hc
        have h0 : some ([] : List Char) = some r := by
          rw [← h]; rfl
        refine ⟨[], Or.inl rfl, ?_⟩
        injection h0 with h0
        simp [← h0]
      · simp [afterDigits, hc] at h
    · by_cases hc : c = '%'
      · subst hc
        have h0 : some (d :: t) = some r := by
          rw [← h]; rfl
        refine ⟨[], Or.inl rfl, ?_⟩
        injection h0 with h0
        simp [← h0]
      · rcases hw : c.isWhitespace with _ | _
        · have hcond : (c.isWhitespace && decide (d = '%')) = false := by simp [hw]
          simp only [afterDigits, if_neg hc, hcond] at h
          simp at h
        · by_cases hd : d = '%'
          · subst hd
            simp [afterDigits, hc, hw] at h
            refine ⟨[c], Or.inr ⟨c, hw, rfl⟩, ?_⟩
            subst h
            rfl
          · have hcond : (c.isWhitespace && decide (d = '%')) = false := by simp [hd]
            simp only [afterDigits, if_neg hc, hcond] at h
            simp at h
  · rintro ⟨ws, hws, rfl⟩
    rcases hws with rfl | ⟨w, hw, rfl⟩
    · rcases r with _ | ⟨a, t⟩
      · rfl
      · rfl
    · have hwp : ¬ w = '%' := by
        intro h; subst h; exact absurd hw (by decide)
      simp [afterDigits, hwp, hw]

theorem tryK_eq_some (cs1 : List Char) (k n : Nat) (r : List Char) :
    tryK cs1 k = some (n, r) ↔
      ∃ ds ws, cs1 = ds ++ (ws ++ '%' :: r) ∧ ds.length = k ∧
        ds.all Char.isDigit = true ∧ WsOpt ws ∧ n = digitsVal ds := by
  constructor
  · intro h
    simp only [tryK] at h
    rcases hg : ((cs1.take k).length == k && (cs1.take k).all Char.isDigit) with _ | _
    · rw [hg] at h; simp at h
    · rw [hg] at h
      simp only [if_true, Option.map_eq_some'] at h
      rcases h with ⟨r', hr', hpair⟩
      have hlen : (cs1.take k).length = k := by
        have hb := (Bool.and_eq_true _ _).mp hg
        exact eq_of_beq hb.1
      have hall : (cs1.take k).all Char.isDigit = true :=
        ((Bool.and_eq_true _ _).mp hg).2
      rcases (afterDigits_eq_some _ _).mp hr' with ⟨ws, hws, hdrop⟩
      injection hpair with hn hrr
      subst hrr
      refine ⟨cs1.take k, ws, ?_, hlen, hall, hws, hn.symm⟩
      conv_lhs => rw [← List.take_append_drop k cs1]
      rw [hdrop]
  · rintro ⟨ds, ws, rfl, hlen, hall, hws, rfl⟩
    have htake : (ds ++ (ws ++ '%' :: r)).take k = ds := by
      rw [← hlen]; exact List.take_left ds (ws ++ '%' :: r)
    have hdrop : (ds ++ (ws ++ '%' :: r)).drop k = ws ++ '%' :: r := by
      rw [← hlen]; exact List.drop_left ds (ws ++ '%' :: r)
    simp only [tryK, htake, hdrop, hlen, beq_self_eq_true, hall, Bool.and_self, if_true]
    rw [(afterDigits_eq_some _ _).mpr ⟨ws, hws, rfl⟩]
    rfl

theorem tryK_eq_none_of_break (ds : List Char) (x : Char) (t : List Char) (k : Nat)
    (hlt : ds.length < k) (hx : x.isDigit = false) :
    tryK (ds ++ x :: t) k = none := by
  simp only [tryK]
  rcases Nat.lt_or_ge (ds ++ x :: t).length k with hsh | hlong
  · have h1 : ((ds ++ x :: t).take k).length ≠ k := by
      rw [List.length_take]
      omega
    have hg : (((ds ++ x :: t).take k).length == k) = false := by
      rcases hb : (((ds ++ x :: t).take k).length == k) with _ | _
      · rfl
      · exact absurd (eq_of_beq hb) h1
    rw [hg, Bool.false_and]
    rfl
  · have hmem : x ∈ (ds ++ x :: t).take k := by
      rw [List.take_append_eq_append_take]
      have h2 : ds.take k = ds := List.take_of_length_le (Nat.le_of_lt hlt)
      have h3 : 1 ≤ k - ds.length := by omega
      rcases hk : k - ds.length with _ | m
      · omega
      · rw [h2]
        simp [List.take_succ_cons]
    have hall : ((ds ++ x :: t).take k).all Char.isDigit = false := by
      rcases hb : ((ds ++ x :: t).take k).all Char.isDigit with _ | _
      · rfl
      · have := List.all_eq_true.mp hb x hmem
        rw [hx] at this
        exact absurd this (by decide)
    simp [hall]

theorem matchMag_eq_some (cs1 : List Char) (n : Nat) (r : List Char) :
    matchMag cs1 = some (n, r) ↔
      ∃ ds ws, cs1 = ds ++ (ws ++ '%' :: r) ∧ 1 ≤ ds.length ∧ ds.length ≤ 3 ∧
        ds.all Char.isDigit = true ∧ WsOpt ws ∧ n = digitsVal ds := by
  constructor
  · intro h
    simp only [matchMag] at h
    rcases h3 : tryK cs1 3 with _ | p3
    · rw [h3] at h
      rcases h2 : tryK cs1 2 with _ | p2
      · rw [h2] at h
        simp only at h
        rcases (tryK_eq_some cs1 1 n r).mp h with ⟨ds, ws, hq, hlen, hall, hws, hn⟩
        exact ⟨ds, ws, hq, by omega, by omega, hall, hws, hn⟩
      · rw [h2] at h
        simp only [Option.some.injEq] at h
        subst h
        rcases (tryK_eq_some cs1 2 n r).mp h2 with ⟨ds, ws, hq, hlen, hall, hws, hn⟩
        exact ⟨ds, ws, hq, by omega, by omega, hall, hws, hn⟩
    · rw [h3] at h
      simp only [Option.some.injEq] at h
      subst h
      rcases (tryK_eq_some cs1 3 n r).mp h3 with ⟨ds, ws, hq, hlen, hall, hws, hn⟩
      exact ⟨ds, ws, hq, by omega, by omega, hall, hws, hn⟩
  · rintro ⟨ds, ws, rfl, h1, h3, hall, hws, rfl⟩
    have hbreak : ∃ x t, (ws ++ '%' :: r) = x :: t ∧ x.isDigit = false := by
      rcases hws with rfl | ⟨w, hw, rfl⟩
      · exact ⟨'%', r, rfl, by decide⟩
      · exact ⟨w, '%' :: r, rfl, not_digit_of_ws w hw⟩
    rcases hbreak with ⟨x, t, hxt, hx⟩
    have hkill : ∀ k, ds.length < k → tryK (ds ++ (ws ++ '%' :: r)) k = none := by
      intro k hk
      rw [hxt]
      exact tryK_eq_none_of_break ds x t k hk hx
    have hfire : tryK (ds ++ (ws ++ '%' :: r)) ds.length = some (digitsVal ds, r) :=
      (tryK_eq_some _ _ _ _).mpr ⟨ds, ws, rfl, rfl, hall, hws, rfl⟩
    have hd : ds.length = 1 ∨ ds.length = 2 ∨ ds.length = 3 := by omega
    rcases hd with hd | hd | hd
    · simp only [matchMag, hkill 3 (by omega), hkill 2 (by omega)]
      rw [← hd]; exact hfire
    · simp only [matchMag, hkill 3 (by omega)]
      rw [← hd]; simp only [hfire]
    · simp only [matchMag]
      rw [← hd]; simp only [hfire]

theorem digit_ne_dash (c : Char) (h : c.isDigit = true) : ¬ c = '-' := by
  intro he; subst he; exact absurd h (by decide)

/-- The anchored PCT_RE match succeeds exactly on the declarative token
shape, with the value the code's int() of the (ASCII-minus-only)
captured group. -/
theorem matchAt_eq_some (cs : List Char) (v : Int) (r : List Char) :
    matchAt cs = some (v, r) ↔ IsPctTokenAt cs v r := by
  constructor
  · intro h
    rcases cs with _ | ⟨c, t⟩
    · simp [matchAt] at h
    · by_cases hc : c = '-'
      · subst hc
        rcases hm : matchMag t with _ | ⟨n, r'⟩
        · simp [matchAt, hm] at h
        · simp [matchAt, hm] at h
          obtain ⟨hv, hr⟩ := h
          subst hr
          rcases (matchMag_eq_some t n r').mp hm with ⟨ds, ws, rfl, h1, h3, hall, hws, rfl⟩
          exact ⟨true, ds, ws, rfl, h1, h3, hall, hws, by simp [← hv]⟩
      · rcases hm : matchMag (c :: t) with _ | ⟨n, r'⟩
        · simp [matchAt, hm, hc] at h
        · simp [matchAt, hm, hc] at h
          obtain ⟨hv, hr⟩ := h
          subst hr
          rcases (matchMag_eq_some (c :: t) n r').mp hm with ⟨ds, ws, hq, h1, h3, hall, hws, rfl⟩
          exact ⟨false, ds, ws, by simpa using hq, h1, h3, hall, hws, by simp [← hv]⟩
  · rintro ⟨sign, ds, ws, hq, h1, h3, hall, hws, rfl⟩
    rcases sign with _ | _
    · have hq' : cs = ds ++ (ws ++ '%' :: r) := by simpa using hq
      rcases hds : ds with _ | ⟨d, ds'⟩
      · subst hds; simp at h1
      · subst hds
        have hdig : d.isDigit = true := List.all_eq_true.mp hall d (by simp)
        have hdd : ¬ d = '-' := digit_ne_dash d hdig
        subst hq'
        have hmm : matchMag (d :: (ds' ++ (ws ++ '%' :: r))) = some (digitsVal (d :: ds'), r) :=
          (matchMag_eq_some ((d :: ds') ++ (ws ++ '%' :: r)) (digitsVal (d :: ds')) r).mpr
            ⟨d :: ds', ws, rfl, h1, h3, hall, hws, rfl⟩
        simp [matchAt, hdd, hmm]
    · have hq' : cs = '-' :: (ds ++ (ws ++ '%' :: r)) := by simpa using hq
      subst hq'
      have hmm := (matchMag_eq_some (ds ++ (ws ++ '%' :: r)) (digitsVal ds) r).mpr
        ⟨ds, ws, rfl, h1, h3, hall, hws, rfl⟩
      simp [matchAt, hmm]

/-! ### Shared lemmas about the extraction pipeline -/

theorem extractGen_hits_mem (u : Bool) (doc : List Node) (v : Int) :
    v ∈ (extractGen u doc).1 ↔ v ∈ pctScan (fullText doc) ∧ 50 ≤ v.natAbs := by
  simp only [extractGen, sortDesc]
  rw [(List.perm_insertionSort (fun a b : Int => b ≤ a) _).mem_iff]
  simp [List.mem_dedup, List.mem_filter]

theorem extractGen_hits_sorted (u : Bool) (doc : List Node) :
    List.Pairwise (fun a b : Int => b < a) (extractGen u doc).1 := by
  have hs : List.Pairwise (fun a b : Int => b ≤ a) (extractGen u doc).1 := by
    simp only [extractGen, sortDesc]
    exact List.sorted_insertionSort _ _
  have hn : List.Pairwise (fun a b : Int => a ≠ b) (extractGen u doc).1 := by
    simp only [extractGen, sortDesc]
    exact ((List.perm_insertionSort (fun a b : Int => b ≤ a) _).symm).nodup
      (List.nodup_dedup _)
  exact (hs.and hn).imp (fun hab => lt_of_le_of_ne hab.1 (Ne.symm hab.2))

theorem cardsLoop_eq (l : List Node) :
    cardsLoop l = ((l.map (fun c => normalizeWs (getText c))).filter pctSearch).map
      (fun s => String.mk (s.take 220)) := by
  induction l with
  | nil => rfl
  | cons c rest ih =>
    simp only [cardsLoop, List.map_cons, List.filter_cons]
    rcases hp : pctSearch (normalizeWs (getText c)) with _ | _
    · simp [hp, ih]
    · simp [hp, ih]

theorem extractGen_snippets (u : Bool) (doc : List Node) :
    (extractGen u doc).2 =
      ((((selL u doc).map (fun e => normalizeWs (getText e))).filter pctSearch).map
        (fun s => String.mk (s.take 220))).take 5 := by
  simp only [extractGen, cardsLoop_eq]

theorem snippet_shape (u : Bool) (doc : List Node) (s : String)
    (hs : s ∈ (extractGen u doc).2) :
    ∃ e ∈ selL u doc, pctSearch (normalizeWs (getText e)) = true ∧
      s = String.mk ((normalizeWs (getText e)).take 220) := by
  rw [extractGen_snippets] at hs
  have hs2 := List.take_subset 5 _ hs
  simp only [List.mem_map, List.mem_filter] at hs2
  rcases hs2 with ⟨l, ⟨⟨e, he, rfl⟩, hp⟩, rfl⟩
  exact ⟨e, he, hp, rfl⟩

theorem snippet_short (u : Bool) (doc : List Node) (s : String)
    (hs : s ∈ (extractGen u doc).2) : s.length ≤ 220 := by
  rcases snippet_shape u doc s hs with ⟨e, _, _, rfl⟩
  show ((normalizeWs (getText e)).take 220).length ≤ 220
  rw [List.length_take]
  exact inf_le_left

/-! ### Shared lemmas about substring occurrence and message assembly -/

theorem strIn_self (a : String) : strIn a a := ⟨[], [], by simp⟩

theorem strIn_left (b : String) {n a : String} (h : strIn n a) : strIn n (a ++ b) := by
  rcases h with ⟨s, t, he⟩
  refine ⟨s, t ++ b.data, ?_⟩
  rw [String.data_append, ← he]
  simp [List.append_assoc]

theorem strIn_right (a : String) {n b : String} (h : strIn n b) : strIn n (a ++ b) := by
  rcases h with ⟨s, t, he⟩
  refine ⟨a.data ++ s, t, ?_⟩
  rw [String.data_append, ← he]
  simp [List.append_assoc]

theorem strIn_intro (n hay : String) (s t : List Char)
    (h : s ++ (n.data ++ t) = hay.data) : strIn n hay :=
  ⟨s, t, by rw [List.append_assoc]; exact h⟩

theorem bullet_item (cards : List String) (c : String) :
    c ∈ cards → strIn ("\n• " ++ c) ("\n• " ++ joinSep "\n• " cards) := by
  induction cards with
  | nil => intro hc; cases hc
  | cons c0 rest ih =>
    intro hc
    rcases List.mem_cons.mp hc with rfl | hc2
    · rcases rest with _ | ⟨c1, t⟩
      · exact strIn_self _
      · have hrw : ("\n• " ++ joinSep "\n• " (c :: c1 :: t) : String) =
            ("\n• " ++ c) ++ ("\n• " ++ joinSep "\n• " (c1 :: t)) := by
          simp [joinSep, String.append_assoc]
        rw [hrw]
        exact strIn_left _ (strIn_self _)
    · rcases rest with _ | ⟨c1, t⟩
      · cases hc2
      · have hrw : ("\n• " ++ joinSep "\n• " (c0 :: c1 :: t) : String) =
            ("\n• " ++ c0) ++ ("\n• " ++ joinSep "\n• " (c1 :: t)) := by
          simp [joinSep, String.append_assoc]
        rw [hrw]
        exact strIn_right _ (ih hc2)

/-! ### Shared lemma about exhausting all candidate URLs -/

theorem fetch_exhaust_aux {ε : Type} (env : FetchEnv ε) (de se : String → ε) :
    ∀ (urls : List String) (lastErr : Option ε),
      (∀ u ∈ urls, env.allowed u = true →
        env.dynFetch u = .error (de u) ∧ env.staFetch u = .error (se u)) →
      (fetch_first_ok env urls lastErr).1 =
        .error (match (urls.filter env.allowed).getLast? with
          | some u => FetchFailure.lastError (se u)
          | none =>
            match lastErr with
            | some e => FetchFailure.lastError e
            | none => FetchFailure.noSources) := by
  intro urls
  induction urls with
  | nil => intro lastErr _; rfl
  | cons u rest ih =>
    intro lastErr hfail
    rcases ha : env.allowed u with _ | _
    · have heq : fetch_first_ok env (u :: rest) lastErr = fetch_first_ok env rest lastErr := by
        simp [fetch_first_ok, ha]
      rw [heq, ih lastErr (fun v hv hav => hfail v (List.mem_cons_of_mem _ hv) hav)]
      rw [List.filter_cons, ha]
      simp
    · have hdyn := (hfail u (List.mem_cons_self _ _) ha).1
      have hsta := (hfail u (List.mem_cons_self _ _) ha).2
      have heq : (fetch_first_ok env (u :: rest) lastErr).1 =
          (fetch_first_ok env rest (some (se u))).1 := by
        simp [fetch_first_ok, ha, hdyn, hsta]
      rw [heq, ih (some (se u)) (fun v hv hav => hfail v (List.mem_cons_of_mem _ hv) hav)]
      rw [List.filter_cons, if_pos ha, List.getLast?_cons]
      rcases hl : (rest.filter env.allowed).getLast? with _ | w
      · rfl
      · rfl

/-! ### The claims -/

/-- C1 (amended): the hit component of extract_promos is the
deduplicated list of the qualifying SIGNED token values — not of their
magnitudes — sorted descending by signed value: a value belongs to it
iff it is a scanned token value of magnitude at least 50, it is strictly
descending (so each signed value appears exactly once however often the
token occurs), "-55% -55% 30%" yields [-55], and on all-positive inputs
this coincides with the claimed descending-magnitude order, as in
"52% 99% 60%" yielding [99, 60, 52]. -/
theorem hitset_signed_values_spec :
    (∀ (doc : List Node) (v : Int),
        v ∈ (extract_promos doc).1 ↔ v ∈ pctScan (fullText doc) ∧ 50 ≤ v.natAbs) ∧
    (∀ doc : List Node, List.Pairwise (fun a b : Int => b < a) (extract_promos doc).1) ∧
    (extract_promos [Node.text "-55% -55% 30%"]).1 = [-55] ∧
    (extract_promos [Node.text "52% 99% 60%"]).1 = [99, 60, 52] :=
  ⟨fun doc v => extractGen_hits_mem true doc v,
   fun doc => extractGen_hits_sorted true doc, by decide, by decide⟩

/-- C1 counterexample: on "-55% 55%" the code returns [55, -55], whose
magnitude list [55, 55] repeats the magnitude 55 — the hit component is
not a set of unique magnitudes, and it is not [55] as the claim
requires. -/
theorem hitset_magnitude_counterexample :
    (extract_promos [Node.text "-55% 55%"]).1 = [55, -55] ∧
    ¬ ((extract_promos [Node.text "-55% 55%"]).1.map Int.natAbs).Nodup := by
  exact ⟨by decide, by decide⟩

/-- C2 (amended): extract_promos is a total function (it cannot raise);
on the empty document it returns an empty hit set and an empty snippet
list; on non-HTML plain-text input (which parses to one text node) the
snippet list is always empty, but the hit set holds exactly the
qualifying tokens of that text, so it is empty only when the text has no
qualifying percentage token. -/
theorem extract_total_spec :
    extract_promos ([] : List Node) = ([], []) ∧
    (∀ s : String, (extract_promos [Node.text s]).2 = []) ∧
    (∀ (s : String) (v : Int),
        v ∈ (extract_promos [Node.text s]).1 ↔
          v ∈ pctScan (fullText [Node.text s]) ∧ 50 ≤ v.natAbs) :=
  ⟨by decide, fun _ => rfl, fun s v => extractGen_hits_mem true [Node.text s] v⟩

/-- C2 counterexample: the non-HTML plain-text input "-60%" does not
yield an empty hit set — extract_promos returns the hit -60. -/
theorem extract_nonhtml_counterexample :
    (extract_promos [Node.text "-60%"]).1 = [-60] ∧
    (extract_promos [Node.text "-60%"]).1 ≠ [] := by
  exact ⟨by decide, by decide⟩

/-- C3: fetch_first_ok walks the candidates in list order: a candidate
the robots gate disallows is skipped with no fetch attempt recorded
against it; every recorded attempt is on an allowed URL; for an allowed
candidate the dynamic (Playwright) strategy is attempted before the
static (requests) strategy; and on the first success the pair (url,
html) is returned at once, with no later candidate attempted. -/
theorem selector_order_spec {ε : Type} (env : FetchEnv ε) :
    (∀ (url : String) (rest : List String) (lastErr : Option ε),
        env.allowed url = false →
        fetch_first_ok env (url :: rest) lastErr = fetch_first_ok env rest lastErr) ∧
    (∀ (urls : List String) (lastErr : Option ε) (url : String) (s : Strategy),
        (url, s) ∈ (fetch_first_ok env urls lastErr).2 → env.allowed url = true) ∧
    (∀ (url : String) (rest : List String) (lastErr : Option ε) (html : String),
        env.allowed url = true → env.dynFetch url = .ok html →
        fetch_first_ok env (url :: rest) lastErr =
          (.ok (url, html), [(url, Strategy.dynamic)])) ∧
    (∀ (url : String) (rest : List String) (lastErr : Option ε) (e : ε) (html : String),
        env.allowed url = true → env.dynFetch url = .error e →
        env.staFetch url = .ok html →
        fetch_first_ok env (url :: rest) lastErr =
          (.ok (url, html), [(url, Strategy.dynamic), (url, Strategy.static)])) := by
  refine ⟨?_, ?_, ?_, ?_⟩
  · intro url rest lastErr h
    simp [fetch_first_ok, h]
  · intro urls
    induction urls with
    | nil =>
      intro lastErr url s hmem
      simp [fetch_first_ok] at hmem
    | cons w rest ih =>
      intro lastErr url s hmem
      rcases ha : env.allowed w with _ | _
      · rw [show fetch_first_ok env (w :: rest) lastErr = fetch_first_ok env rest lastErr by
          simp [fetch_first_ok, ha]] at hmem
        exact ih lastErr url s hmem
      · cases hd : env.dynFetch w with
        | ok html =>
          rw [show fetch_first_ok env (w :: rest) lastErr =
              (.ok (w, html), [(w, Strategy.dynamic)]) by simp [fetch_first_ok, ha, hd]] at hmem
          simp at hmem
          rcases hmem with ⟨rfl, rfl⟩
          exact ha
        | error e1 =>
          cases hs2 : env.staFetch w with
          | ok html =>
            rw [show fetch_first_ok env (w :: rest) lastErr =
                (.ok (w, html), [(w, Strategy.dynamic), (w, Strategy.static)]) by
              simp [fetch_first_ok, ha, hd, hs2]] at hmem
            simp at hmem
            rcases hmem with ⟨rfl, rfl⟩ | ⟨rfl, rfl⟩
            · exact ha
            · exact ha
          | error e2 =>
            rw [show (fetch_first_ok env (w :: rest) lastErr).2 =
                (w, Strategy.dynamic) :: (w, Strategy.static) ::
                  (fetch_first_ok env rest (some e2)).2 by
              simp [fetch_first_ok, ha, hd, hs2]] at hmem
            simp only [List.mem_cons] at hmem
            rcases hmem with h1 | h1 | h1
            · rcases Prod.mk.injEq .. ▸ h1 with ⟨rfl, rfl⟩
              exact ha
            · rcases Prod.mk.injEq .. ▸ h1 with ⟨rfl, rfl⟩
              exact ha
            · exact ih (some e2) url s h1
  · intro url rest lastErr html ha hd
    simp [fetch_first_ok, ha, hd]
  · intro url rest lastErr e html ha hd hs
    simp [fetch_first_ok, ha, hd, hs]

/-- C3 witness: with candidate "a" disallowed and "b" succeeding
dynamically, the selector returns b's result and the only recorded
attempt is the dynamic fetch of "b" — "a" is never fetched. -/
theorem selector_order_spec_witness :
    fetch_first_ok envSkipThenOk ["a", "b"] none =
      (.ok ("b", "<html>"), [("b", Strategy.dynamic)]) := by
  have h := selector_order_spec envSkipThenOk
  rw [h.1 "a" ["b"] none (by decide)]
  exact h.2.2.1 "b" [] none "<html>" (by decide) rfl

/-- C4: if every candidate is either disallowed by policy or fails both
strategies, fetch_first_ok raises: the error carried is the most recent
underlying fetch error, i.e. the static-strategy error of the last
allowed candidate, and when every candidate was skipped by policy (no
fetch attempted at all) it is the generic no-sources RuntimeError
instead. -/
theorem selector_exhaustion_spec {ε : Type} (env : FetchEnv ε) (de se : String → ε)
    (urls : List String)
    (hfail : ∀ u ∈ urls, env.allowed u = true →
      env.dynFetch u = .error (de u) ∧ env.staFetch u = .error (se u)) :
    (fetch_first_ok env urls none).1 =
      .error (match (urls.filter env.allowed).getLast? with
        | some u => FetchFailure.lastError (se u)
        | none => FetchFailure.noSources) := by
  have h := fetch_exhaust_aux env de se urls none hfail
  rcases hl : (urls.filter env.allowed).getLast? with _ | w
  · rw [hl] at h
    exact h
  · rw [hl] at h
    exact h

/-- C4 witness: with two candidates that both fail both strategies the
selector fails with the last static error; with both candidates skipped
by policy it fails with the generic no-sources error. -/
theorem selector_exhaustion_spec_witness :
    (fetch_first_ok envAllFail ["a", "b"] none).1 =
      .error (FetchFailure.lastError "rq") ∧
    (fetch_first_ok envAllSkipped ["a", "b"] none).1 = .error FetchFailure.noSources := by
  constructor
  · have h := selector_exhaustion_spec envAllFail (fun _ => "pw") (fun _ => "rq") ["a", "b"]
      (fun _ _ _ => ⟨rfl, rfl⟩)
    exact h.trans rfl
  · have h := selector_exhaustion_spec envAllSkipped (fun _ => "pw") (fun _ => "rq") ["a", "b"]
      (fun _ _ hx => (Bool.false_ne_true hx).elim)
    exact h.trans rfl

/-- C5: when the robots.txt document cannot be retrieved or parsed, each
variant's gate returns without raising, and its result is one fixed
boolean that does not depend on the error: the headless variant always
returns true (permissive), the plain variant always returns false
(conservative). -/
theorem robots_failure_default_spec :
    ∀ (εr : Type) (e e2 : εr) (ua ua2 url url2 : String),
      allowed_by_robots false (Except.error e) ua url = true ∧
      allowed_by_robots_plain (Except.error e) ua url = false ∧
      allowed_by_robots false (Except.error e) ua url =
        allowed_by_robots false (Except.error e2) ua2 url2 ∧
      allowed_by_robots_plain (Except.error e) ua url =
        allowed_by_robots_plain (Except.error e2) ua2 url2 := by
  intro εr e e2 ua ua2 url url2
  exact ⟨rfl, rfl, rfl, rfl⟩

/-- C6 (amended): an anchored PCT_RE match succeeds exactly on one to
three digits with an optional leading ASCII minus, optional single
whitespace and a percent sign; the Unicode minus is NOT part of the
pattern (and the captured group can never contain one, so the source's
normalisation replace is a no-op): "−55%" (Unicode minus) is tokenised
as "55%" and parsed as the value 55, while ASCII "-55%" parses as
-55. -/
theorem pct_pattern_spec :
    (∀ (cs : List Char) (v : Int) (r : List Char),
        matchAt cs = some (v, r) ↔ IsPctTokenAt cs v r) ∧
    pctScan ("−55%".data) = [55] ∧
    pctScan ("-55%".data) = [-55] :=
  ⟨matchAt_eq_some, by decide, by decide⟩

/-- C6 counterexample: the text "−55%" (Unicode minus) is scanned as the
value 55, not -55 — the Unicode minus is not recognised as a sign. -/
theorem pct_unicode_minus_counterexample :
    pctScan ("−55%".data) = [55] ∧ ¬ ((-55 : Int) ∈ pctScan ("−55%".data)) := by
  exact ⟨by decide, by decide⟩

/-- C7: the snippet component holds at most 5 snippets; each is at most
220 characters; each is the 220-character truncation of the
whitespace-normalised text of a selected card-like element whose
normalised text contains a percentage token; the kept snippets are the
first five qualifying elements in document order (the take-5 prefix of
the document-order qualifying list); and ten qualifying card elements
yield exactly 5 snippets. -/
theorem snippets_spec :
    (∀ doc : List Node,
      (extract_promos doc).2.length ≤ 5 ∧
      (∀ s ∈ (extract_promos doc).2, s.length ≤ 220) ∧
      (∀ s ∈ (extract_promos doc).2, ∃ e ∈ selL true doc,
          pctSearch (normalizeWs (getText e)) = true ∧
          s = String.mk ((normalizeWs (getText e)).take 220)) ∧
      (extract_promos doc).2 =
        ((((selL true doc).map (fun e => normalizeWs (getText e))).filter pctSearch).map
          (fun l => String.mk (l.take 220))).take 5) ∧
    (extract_promos tenCards).2.length = 5 := by
  constructor
  · intro doc
    refine ⟨?_, ?_, ?_, ?_⟩
    · show ((cardsLoop (selL true doc)).take 5).length ≤ 5
      rw [List.length_take]
      exact inf_le_left
    · intro s hs
      exact snippet_short true doc s hs
    · intro s hs
      exact snippet_shape true doc s hs
    · exact extractGen_snippets true doc
  · decide

/-- C7 witness: applying the theorem at the ten-card document and its
first snippet. -/
theorem snippets_spec_witness :
    ("-60% soldes" : String).length ≤ 220 ∧ (extract_promos tenCards).2.length = 5 :=
  ⟨(snippets_spec.1 tenCards).2.1 "-60% soldes" (by decide), snippets_spec.2⟩

/-- C8 (amended): in the headless variant the non-empty-hit message
contains the hit count right before the "remise(s)" header text, the
comma-joined positive magnitudes of the first five hits, each snippet on
its own bulleted line, and the source URL after "Source : "; with no
snippets the body is the empty string; the empty-hit message is exactly
the timestamped none-found line naming the source URL.  In the plain
variant the non-empty-hit message carries the count and the fixed URL
after "Lien: ", but the empty-hit message carries only the time and the
none-found text — it does not name the source URL. -/
theorem compose_message_spec :
    (∀ (v : Int) (hs : List Int) (cards : List String) (url now : String),
        strIn (toString (v :: hs).length ++ " remise(s) ≥ 50% (")
          (composeAlert (v :: hs) cards url now) ∧
        strIn (joinSep ", " (((v :: hs).take 5).map (fun w => toString w.natAbs ++ "%")))
          (composeAlert (v :: hs) cards url now) ∧
        (∀ c ∈ cards, strIn ("\n• " ++ c) (composeAlert (v :: hs) cards url now)) ∧
        strIn ("\n\nSource : " ++ url) (composeAlert (v :: hs) cards url now)) ∧
    (∀ (v : Int) (hs : List Int) (url now : String),
        composeAlert (v :: hs) [] url now =
          "🛒 Carrefour : " ++ toString (v :: hs).length ++ " remise(s) ≥ 50% (" ++
            joinSep ", " (((v :: hs).take 5).map (fun w => toString w.natAbs ++ "%")) ++ ")" ++
            "\n" ++ "" ++ "\n\nSource : " ++ url) ∧
    (∀ (cards : List String) (url now : String),
        composeAlert [] cards url now =
          "🕐 " ++ now ++ " — aucune remise ≥ 50% trouvée (source : " ++ url ++ ").") ∧
    (∀ (v : Int) (hs : List Int) (cards : List String) (now : String),
        strIn ("\n\nLien: " ++ PROMO_URL) (composeAlertPlain (v :: hs) cards now) ∧
        strIn (toString (v :: hs).length ++ " remise(s) ≥ 50% (")
          (composeAlertPlain (v :: hs) cards now)) ∧
    (∀ (cards : List String) (now : String),
        composeAlertPlain [] cards now = "🕓 " ++ now ++ " – aucune remise ≥ 50% trouvée.") := by
  refine ⟨?_, ?_, fun _ _ _ => rfl, ?_, fun _ _ => rfl⟩
  · intro v hs cards url now
    refine ⟨?_, ?_, ?_, ?_⟩
    · refine strIn_intro _ _ ("🛒 Carrefour : ".data)
        ((joinSep ", " (((v :: hs).take 5).map (fun w => toString w.natAbs ++ "%")) ++ ")" ++
          "\n" ++ (if cards.isEmpty then "" else "\n• " ++ joinSep "\n• " cards) ++
          "\n\nSource : " ++ url).data) ?_
      simp [composeAlert, String.data_append, List.append_assoc]
    · refine strIn_intro _ _
        (("🛒 Carrefour : " ++ toString (v :: hs).length ++ " remise(s) ≥ 50% (").data)
        (((")" : String) ++ "\n" ++ (if cards.isEmpty then "" else "\n• " ++
          joinSep "\n• " cards) ++ "\n\nSource : " ++ url).data) ?_
      simp [composeAlert, String.data_append, List.append_assoc]
    · intro c hc
      have hb : cards.isEmpty = false := by
        cases cards
        · cases hc
        · rfl
      have hmsg : composeAlert (v :: hs) cards url now =
          ("🛒 Carrefour : " ++ toString (v :: hs).length ++ " remise(s) ≥ 50% (" ++
            joinSep ", " (((v :: hs).take 5).map (fun w => toString w.natAbs ++ "%")) ++ ")" ++
            "\n") ++
          (("\n• " ++ joinSep "\n• " cards) ++ ("\n\nSource : " ++ url)) := by
        simp [composeAlert, hb, String.append_assoc]
      rw [hmsg]
      exact strIn_right _ (strIn_left _ (bullet_item cards c hc))
    · refine strIn_intro _ _
        (("🛒 Carrefour : " ++ toString (v :: hs).length ++ " remise(s) ≥ 50% (" ++
          joinSep ", " (((v :: hs).take 5).map (fun w => toString w.natAbs ++ "%")) ++ ")" ++
          "\n" ++ (if cards.isEmpty then "" else "\n• " ++ joinSep "\n• " cards)).data)
        ([]) ?_
      simp [composeAlert, String.data_append, List.append_assoc]
  · intro v hs url now
    simp [composeAlert, String.append_assoc]
  · intro v hs cards now
    constructor
    · refine strIn_intro _ _
        (("🔥 Carrefour: " ++ toString (v :: hs).length ++ " remise(s) ≥ 50% (" ++
          joinSep ", " (((v :: hs).take 5).map (fun w => toString w.natAbs ++ "%")) ++ ")" ++
          "\n" ++ (if cards.isEmpty then "" else "\n• " ++ joinSep "\n• " cards)).data)
        ([]) ?_
      simp [composeAlertPlain, String.data_append, List.append_assoc]
    · refine strIn_intro _ _ ("🔥 Carrefour: ".data)
        ((joinSep ", " (((v :: hs).take 5).map (fun w => toString w.natAbs ++ "%")) ++ ")" ++
          "\n" ++ (if cards.isEmpty then "" else "\n• " ++ joinSep "\n• " cards) ++
          "\n\nLien: " ++ PROMO_URL).data) ?_
      simp [composeAlertPlain, String.data_append, List.append_assoc]

/-- C8 witness: the bulleted-snippet and count properties applied at a
concrete message. -/
theorem compose_message_spec_witness :
    strIn ("\n• " ++ "promo") (composeAlert [60] ["promo"] "u" "t") ∧
    strIn (toString ([60] : List Int).length ++ " remise(s) ≥ 50% (")
      (composeAlert [60] ["promo"] "u" "t") :=
  ⟨(compose_message_spec.1 60 [] ["promo"] "u" "t").2.2.1 "promo" (by decide),
   (compose_message_spec.1 60 [] ["promo"] "u" "t").1⟩

/-- C8 counterexample: the plain variant's empty-hit message names no
source URL — the promotions URL does not occur in it. -/
theorem compose_plain_no_url_counterexample :
    composeAlertPlain [] [] "09:05" = "🕓 09:05 – aucune remise ≥ 50% trouvée." ∧
    ¬ strIn PROMO_URL (composeAlertPlain [] [] "09:05") := by
  exact ⟨rfl, by decide⟩

/-- C9 (amended): in the headless variant, when acquisition fails the
cycle returns normally after sending exactly the error-notification
message — built from the error alone, so extraction and alert
composition play no part — and that message is distinct from every
no-discount message; in the plain variant, a download error ends the
cycle with no message delivered at all. -/
theorem job_once_error_spec :
    ∀ (e now : String),
      job_once (Except.error e) now = errNotice e ∧
      (∀ (cards : List String) (url now2 : String),
          errNotice e ≠ composeAlert [] cards url now2) ∧
      (∀ now2 : String, job_once_plain true (Except.error e) now2 = none) := by
  intro e now
  refine ⟨rfl, ?_, fun _ => rfl⟩
  intro cards url now2 h
  have hL : (errNotice e).data.head? = some '⚠' := by
    simp only [errNotice, String.data_append]
    rfl
  have hR : (composeAlert [] cards url now2).data.head? = some '🕐' := by
    simp only [composeAlert, List.isEmpty_nil, if_true, String.data_append]
    rfl
  have hc : (errNotice e).data.head? = (composeAlert [] cards url now2).data.head? := by
    rw [h]
  rw [hL, hR] at hc
  exact absurd hc (by decide)

/-- C9 witness: the headless error path and the plain silent path at a
concrete error. -/
theorem job_once_error_spec_witness :
    job_once (Except.error "timeout") "09:05" = errNotice "timeout" ∧
    job_once_plain true (Except.error "timeout") "09:05" = none :=
  ⟨(job_once_error_spec "timeout" "09:05").1,
   (job_once_error_spec "timeout" "09:05").2.2 "09:05"⟩

/-- C9 counterexample: in the plain variant a download error produces no
notification at all — nothing is handed to the sink, contradicting the
claim that an error-notification message is composed and delivered. -/
theorem job_once_plain_silent_counterexample :
    job_once_plain true (Except.error "boom") "12:00" = none := rfl

/-- C10: the text "1234%" — a four-digit run before the percent sign —
produces the qualifying hit 234 from its trailing three digits, because
the pattern has no left boundary check; 234 is not among the whole
numbers (maximal digit runs) literally present in the text. -/
theorem digit_run_truncation_spec :
    extract_promos [Node.text "1234%"] = ([234], []) ∧
    pctScan ("1234%".data) = [234] ∧
    (digitRuns ("1234%".data)).all (fun run => digitsVal run != 234) = true := by
  exact ⟨by decide, by decide, by decide⟩

end PromoWatcher
